import Mathlib

/-!
Verification development for the ink-scroll-view repository: a virtualized
scrolling container for Ink (terminal React).  The scroll engine keeps a
per-item height table, a lazily filled cumulative offset cache with an
invalidation frontier, a content height maintained incrementally, and a
clamped scroll offset.  We shallowly embed the engine variants found in the
sources:

* `InkScroll.Engine`  — the ScrollView of src/unnamed/part_018 (stateful,
  lazy offset cache in `getItemPosition`, scroll methods clamping to
  `contentHeight`, clamp effect `scrollOffset > contentHeight`).
* `InkScroll.Clamped` — the first ScrollView of src/src/ScrollView.tsx
  (scroll methods clamping to `maxScrollOffset = max 0 (contentHeight -
  viewportHeight)`, clamp effect against `maxScrollOffset`).
* `InkScroll.Anchor`  — the second ScrollView of src/src/ScrollView.tsx
  (`handleMeasure` with scroll anchoring, `getItemLayout` with visibility).
* `InkScroll.ScrollList` — the selection navigator of src/unnamed/part_017.
* `InkScroll.JS`      — enough of ECMAScript number semantics (`Math.min`,
  `Math.max`, strict inequality `!==`) to settle the non-finite `scrollTo`
  claim, since `NaN` propagation decides it.

Measured item heights and viewport sizes are nonnegative row counts and are
modelled as `Nat`; scroll offsets and content heights are modelled as `Int`
(the code adds signed deltas).  React state updates that the component
performs through effects (re-clamping after a content height change) are
folded into the operations, modelling the settled state after a render pass.
-/

namespace InkScroll

namespace JS

/-- A JavaScript number as far as `Math.min` / `Math.max` / `!==` are
concerned: a finite value (we only need exact values, represented as `ℚ`),
`NaN`, or one of the two infinities. -/
inductive JSNum where
  | fin (q : ℚ)
  | nan
  | posInf
  | negInf
deriving DecidableEq

/-- ECMAScript `Math.min` on two arguments: `NaN` if either argument is
`NaN`, otherwise the smaller value with `-Infinity` at the bottom and
`+Infinity` at the top. -/
def jsMin : JSNum → JSNum → JSNum
  | .nan, _ => .nan
  | _, .nan => .nan
  | .negInf, _ => .negInf
  | _, .negInf => .negInf
  | .posInf, y => y
  | x, .posInf => x
  | .fin q, .fin r => .fin (min q r)

/-- ECMAScript `Math.max` on two arguments: `NaN` if either argument is
`NaN`, otherwise the larger value. -/
def jsMax : JSNum → JSNum → JSNum
  | .nan, _ => .nan
  | _, .nan => .nan
  | .posInf, _ => .posInf
  | _, .posInf => .posInf
  | .negInf, y => y
  | x, .negInf => x
  | .fin q, .fin r => .fin (max q r)

/-- ECMAScript strict inequality `x !== y` on numbers: true whenever the
values differ, and also when either side is `NaN` (`NaN !== NaN`). -/
def jsStrictNe (x y : JSNum) : Bool :=
  match x, y with
  | .nan, _ => true
  | _, .nan => true
  | x, y => decide (x ≠ y)

/-- The `scrollTo` of src/src/ScrollView.tsx lines 437-443, run on JavaScript
number semantics: `newScrollTop = Math.max(0, Math.min(offset,
maxScrollOffset))`; the offset is stored and `onScroll` fires exactly when
`newScrollTop !== scrollOffset`.  Returns the offset afterwards and whether
the scroll-changed notification fired. -/
def scrollToJS (scrollOffset maxScrollOffset offset : JSNum) : JSNum × Bool :=
  let newScrollTop := jsMax (.fin 0) (jsMin offset maxScrollOffset)
  if jsStrictNe newScrollTop scrollOffset then (newScrollTop, true)
  else (scrollOffset, false)

end JS

namespace Engine

/-- State of the part_018 ScrollView.  `heights` is the item height table
read through the index-to-key map (`itemHeightsRef` composed with
`itemKeysRef`; the keys are a bijection onto positions between sequence
changes, so the composite is an index-addressed table).  `offsets` is
`itemOffsetsRef`, `firstInvalid` is `firstInvalidOffsetIndexRef`. -/
structure EngineState where
  heights : List Nat
  offsets : List Nat
  firstInvalid : Nat
  scrollOffset : Int
  contentHeight : Int
  viewportHeight : Nat
deriving DecidableEq

/-- Sum of the heights of items `0 .. j-1`: the direct prefix sum over the
height table that the offset cache is supposed to agree with. -/
def prefixSum (hs : List Nat) (j : Nat) : Nat :=
  (hs.take j).sum

/-- The `handleItemMeasure` callback of part_018 lines 371-401: if the
reported height differs from the stored one, add the delta to the content
height, store the new height, and lower the invalidation frontier to
`min firstInvalid (index + 1)` (the offset of the changed item itself stays valid). -/
def handleItemMeasure (s : EngineState) (index h : Nat) : EngineState :=
  if s.heights.getD index 0 = h then s
  else
    { s with
      heights := s.heights.set index h
      contentHeight := s.contentHeight + ((h : Int) - (s.heights.getD index 0 : Int))
      firstInvalid := min s.firstInvalid (index + 1) }

/-- The clamp effect of part_018 lines 453-458: if the scroll offset exceeds
the content height, snap it down to the content height. -/
def clampEffect (s : EngineState) : EngineState :=
  if s.contentHeight < s.scrollOffset then { s with scrollOffset := s.contentHeight }
  else s

/-- A measurement report followed by the re-clamp effect of the same render
pass. -/
def measureStep (s : EngineState) (index h : Nat) : EngineState :=
  clampEffect (handleItemMeasure s index h)

/-- The cache-filling loop of `getItemPosition` (part_018 lines 536-541):
starting at position `i` with running offset `cur`, write `cur` into the
offset cache and add the item height, `fuel` times. -/
def fillLoop (hs : List Nat) : List Nat → Nat → Nat → Nat → List Nat
  | offs, _, 0, _ => offs
  | offs, i, fuel + 1, cur =>
      fillLoop hs (offs.set i cur) (i + 1) fuel (cur + hs.getD i 0)

/-- The lazy cache update inside `getItemPosition` (part_018 lines 522-543):
when the queried index `i` is at or beyond the invalidation frontier, resume
from the last known-valid offset (`firstInvalid - 1`, or 0 when nothing is
valid), fill the cache up to and including `i`, and move the frontier to
`i + 1`. -/
def refreshCache (s : EngineState) (i : Nat) : EngineState :=
  if s.firstInvalid ≤ i then
    let start := s.firstInvalid
    let cur :=
      if 0 < s.firstInvalid then
        s.offsets.getD (s.firstInvalid - 1) 0 + s.heights.getD (s.firstInvalid - 1) 0
      else 0
    { s with
      offsets := fillLoop s.heights s.offsets start (i + 1 - start) cur
      firstInvalid := i + 1 }
  else s

/-- The `getItemPosition` of part_018 lines 516-549.  Out-of-range indices
give `none`.  Otherwise the lazy cache update runs, and `(top, height)` is
read from the cache and the height table.  Returns the result together with
the updated state (the cache mutation). -/
def getItemPosition (s : EngineState) (index : Int) : Option (Nat × Nat) × EngineState :=
  if index < 0 ∨ (s.heights.length : Int) ≤ index then (none, s)
  else
    let i := index.toNat
    let s2 := refreshCache s i
    (some (s2.offsets.getD i 0, s2.heights.getD i 0), s2)

/-- The `scrollTo` of part_018 lines 464-474: clamp the target to
`[0, contentHeight]` and store it, firing the scroll notification exactly
when the clamped value differs from the current offset. -/
def scrollTo (s : EngineState) (offset : Int) : EngineState × Bool :=
  let newScrollTop := max 0 (min offset s.contentHeight)
  if newScrollTop ≠ s.scrollOffset then
    ({ s with scrollOffset := newScrollTop }, true)
  else (s, false)

/-- The `scrollBy` of part_018 lines 475-485: clamp `current + delta` to
`[0, contentHeight]`. -/
def scrollBy (s : EngineState) (delta : Int) : EngineState × Bool :=
  scrollTo s (s.scrollOffset + delta)

/-- The `scrollToTop` of part_018 lines 486-491. -/
def scrollToTop (s : EngineState) : EngineState × Bool :=
  if s.scrollOffset ≠ 0 then ({ s with scrollOffset := 0 }, true) else (s, false)

/-- The `scrollToBottom` of part_018 lines 492-501: target
`max 0 (contentHeight - viewportHeight)`. -/
def scrollToBottom (s : EngineState) : EngineState × Bool :=
  let bottomOffset := max 0 (s.contentHeight - (s.viewportHeight : Int))
  if s.scrollOffset ≠ bottomOffset then
    ({ s with scrollOffset := bottomOffset }, true)
  else (s, false)

/-- The viewport measurement of `measureViewport` / `remeasure`: store the
new viewport height.  The part_018 clamp effect does not depend on the
viewport, so no re-clamping happens here. -/
def setViewport (s : EngineState) (v : Nat) : EngineState :=
  { s with viewportHeight := v }

/-- The children effect of part_018 lines 419-448 followed by the re-clamp
effect: the height table is rebuilt (heights carried over by key where the
key persists, otherwise 0 — the rebuilt table is passed in as `hs`), the
content height is resummed from scratch, and the offset cache is reset. -/
def childrenChange (s : EngineState) (hs : List Nat) : EngineState :=
  clampEffect
    { s with
      heights := hs
      contentHeight := (hs.sum : Int)
      offsets := List.replicate hs.length 0
      firstInvalid := 0 }

/-- Externally triggered engine events: a measurement report, a position
query (which mutates the cache), the four scroll methods, a viewport
re-measurement, and a sequence change. -/
inductive Ev where
  | measure (index h : Nat)
  | query (index : Int)
  | scrollTo (offset : Int)
  | scrollBy (delta : Int)
  | scrollToTop
  | scrollToBottom
  | setViewport (v : Nat)
  | children (hs : List Nat)
deriving DecidableEq

/-- One engine step. -/
def step (s : EngineState) : Ev → EngineState
  | .measure index h => measureStep s index h
  | .query index => (getItemPosition s index).2
  | .scrollTo offset => (scrollTo s offset).1
  | .scrollBy delta => (scrollBy s delta).1
  | .scrollToTop => (scrollToTop s).1
  | .scrollToBottom => (scrollToBottom s).1
  | .setViewport v => setViewport s v
  | .children hs => childrenChange s hs

/-- Run a sequence of events. -/
def run (s : EngineState) (evs : List Ev) : EngineState :=
  evs.foldl step s

/-- The engine state right after a mount or sequence change: carried-over
heights `h0` (all zeros on a fresh mount), a reset offset cache, scroll
offset 0, content height resummed from scratch. -/
def initState (h0 : List Nat) (v0 : Nat) : EngineState :=
  { heights := h0
    offsets := List.replicate h0.length 0
    firstInvalid := 0
    scrollOffset := 0
    contentHeight := (h0.sum : Int)
    viewportHeight := v0 }

/-- Measurement reports only come from mounted items, so their index is in
range; every other event is unrestricted. -/
def evOK (s : EngineState) : Ev → Bool
  | .measure index _ => decide (index < s.heights.length)
  | _ => true

/-- All events of a run are well formed with respect to the state they are
applied to. -/
def runOK (s : EngineState) : List Ev → Bool
  | [] => true
  | e :: es => evOK s e && runOK (step s e) es

/-- Validity of the offset cache: it has one slot per item, the frontier is
within bounds, and every cached offset strictly below the frontier is the
prefix sum of the current heights. -/
def CacheValid (s : EngineState) : Prop :=
  s.offsets.length = s.heights.length ∧
  s.firstInvalid ≤ s.heights.length ∧
  ∀ j, j < s.firstInvalid → s.offsets.getD j 0 = prefixSum s.heights j

/-- The result `getItemPosition` is supposed to produce, as a pure function
of the height table: `none` out of range, otherwise the direct prefix sum
and the stored height. -/
def pureItemPosition (hs : List Nat) (index : Int) : Option (Nat × Nat) :=
  if index < 0 ∨ (hs.length : Int) ≤ index then none
  else some (prefixSum hs index.toNat, hs.getD index.toNat 0)

/-- The incrementally maintained content height agrees with the direct sum
over the height table. -/
def ContentInv (s : EngineState) : Prop :=
  s.contentHeight = (s.heights.sum : Int)

/-- The scroll offset bound actually enforced by the part_018 engine:
`0 ≤ scrollOffset ≤ contentHeight`. -/
def OffsetBound (s : EngineState) : Prop :=
  0 ≤ s.scrollOffset ∧ s.scrollOffset ≤ s.contentHeight

end Engine

namespace Clamped

/-- State of the first ScrollView in src/src/ScrollView.tsx.  The
`maxScrollOffset` React state is kept equal to
`max 0 (contentHeight - viewportHeight)` by the effect at lines 386-391; we
model the settled value as a derived quantity. -/
structure CState where
  heights : List Nat
  scrollOffset : Int
  contentHeight : Int
  viewportHeight : Nat
deriving DecidableEq

/-- The `maxScrollOffset` maintained by the effect at ScrollView.tsx lines
386-391: `Math.max(0, contentHeight - viewportSize.height)`. -/
def maxScrollOffset (s : CState) : Int :=
  max 0 (s.contentHeight - (s.viewportHeight : Int))

/-- The `scrollTo` of ScrollView.tsx lines 437-443: clamp to
`[0, maxScrollOffset]`, fire the scroll notification exactly when the
clamped value differs from the current offset. -/
def scrollTo (s : CState) (offset : Int) : CState × Bool :=
  let newScrollTop := max 0 (min offset (maxScrollOffset s))
  if newScrollTop ≠ s.scrollOffset then
    ({ s with scrollOffset := newScrollTop }, true)
  else (s, false)

/-- The `scrollBy` of ScrollView.tsx lines 444-453. -/
def scrollBy (s : CState) (delta : Int) : CState × Bool :=
  scrollTo s (s.scrollOffset + delta)

/-- The `scrollToTop` of ScrollView.tsx lines 454-459. -/
def scrollToTop (s : CState) : CState × Bool :=
  if s.scrollOffset ≠ 0 then ({ s with scrollOffset := 0 }, true) else (s, false)

/-- The `scrollToBottom` of ScrollView.tsx lines 460-465: jump to
`maxScrollOffset`. -/
def scrollToBottom (s : CState) : CState × Bool :=
  if s.scrollOffset ≠ maxScrollOffset s then
    ({ s with scrollOffset := maxScrollOffset s }, true)
  else (s, false)

/-- The clamp effect of ScrollView.tsx lines 426-431: when the offset
exceeds the (settled) `maxScrollOffset`, snap down to it, never up. -/
def clampEffect (s : CState) : CState :=
  if maxScrollOffset s < s.scrollOffset then { s with scrollOffset := maxScrollOffset s }
  else s

/-- The `onItemMeasure` of ScrollView.tsx lines 336-358 (incremental content
height update), followed by the re-clamp of the same render pass. -/
def onItemMeasure (s : CState) (index h : Nat) : CState :=
  if s.heights.getD index 0 = h then s
  else
    clampEffect
      { s with
        heights := s.heights.set index h
        contentHeight := s.contentHeight + ((h : Int) - (s.heights.getD index 0 : Int)) }

/-- The viewport re-measurement (`remeasure`, lines 470-481) followed by the
re-clamp of the same render pass. -/
def setViewport (s : CState) (v : Nat) : CState :=
  clampEffect { s with viewportHeight := v }

/-- The children effect of ScrollView.tsx lines 396-421 (heights rebuilt by
key, content height resummed) followed by the re-clamp. -/
def childrenChange (s : CState) (hs : List Nat) : CState :=
  clampEffect { s with heights := hs, contentHeight := (hs.sum : Int) }

/-- Public events of the clamped ScrollView. -/
inductive Ev where
  | measure (index h : Nat)
  | scrollTo (offset : Int)
  | scrollBy (delta : Int)
  | scrollToTop
  | scrollToBottom
  | setViewport (v : Nat)
  | children (hs : List Nat)
deriving DecidableEq

/-- One step of the clamped ScrollView. -/
def step (s : CState) : Ev → CState
  | .measure index h => onItemMeasure s index h
  | .scrollTo offset => (scrollTo s offset).1
  | .scrollBy delta => (scrollBy s delta).1
  | .scrollToTop => (scrollToTop s).1
  | .scrollToBottom => (scrollToBottom s).1
  | .setViewport v => setViewport s v
  | .children hs => childrenChange s hs

/-- Run a sequence of events. -/
def run (s : CState) (evs : List Ev) : CState :=
  evs.foldl step s

/-- The mounted state: offset 0, heights and content height from the first
children pass. -/
def initState (h0 : List Nat) (v0 : Nat) : CState :=
  { heights := h0
    scrollOffset := 0
    contentHeight := (h0.sum : Int)
    viewportHeight := v0 }

/-- The scroll offset invariant stated by the specification:
`0 ≤ scrollOffset ≤ max 0 (contentHeight - viewportHeight)`. -/
def OffsetInv (s : CState) : Prop :=
  0 ≤ s.scrollOffset ∧ s.scrollOffset ≤ maxScrollOffset s

end Clamped

namespace Anchor

/-- State of the second ScrollView in src/src/ScrollView.tsx: per-index item
heights (`itemHeights`, a partial record — `none` until first measurement),
the scroll offset (`scrollTop`) and the measured viewport height. -/
structure AState where
  heights : List (Option Nat)
  scrollTop : Int
  viewportHeight : Nat
deriving DecidableEq

/-- Sum of the heights of the items strictly below index `i`, an unmeasured
height counting as 0 (the `top` loop of `handleMeasure` and
`getItemLayout`). -/
def sumBelow (hs : List (Option Nat)) (i : Nat) : Nat :=
  ((hs.take i).map (fun o => o.getD 0)).sum

/-- The `handleMeasure` of ScrollView.tsx lines 889-950.  A report that does
not change the stored height is ignored.  Otherwise the height is stored
and, when the previous bottom edge of the item (`top + oldHeight`) lies at or
above the current scroll offset (`oldBottom <= prevScrollTop`), the offset
is shifted by the height delta and clamped below at 0 (scroll anchoring);
otherwise the offset is untouched. -/
def handleMeasure (s : AState) (index h : Nat) : AState :=
  if s.heights.getD index none = some h then s
  else
    let oldHeight := (s.heights.getD index none).getD 0
    let delta : Int := (h : Int) - (oldHeight : Int)
    let heights2 := s.heights.set index (some h)
    let top := sumBelow heights2 index
    let oldBottom : Int := (top : Int) + (oldHeight : Int)
    let scrollTop2 :=
      if oldBottom ≤ s.scrollTop then max 0 (s.scrollTop + delta) else s.scrollTop
    { s with heights := heights2, scrollTop := scrollTop2 }

/-- The extended layout record returned by `getItemLayout`. -/
structure Layout where
  top : Int
  height : Int
  bottom : Int
  isVisible : Bool
  visibleTop : Int
  visibleHeight : Int
deriving DecidableEq

/-- The `getItemLayout` of ScrollView.tsx lines 1032-1071: `none` for an
out-of-range index and also for an in-range item that has not been measured
yet (`itemHeights[index] === undefined`); otherwise the absolute span plus
visibility data against the current scroll offset and viewport height. -/
def getItemLayout (s : AState) (index : Int) : Option Layout :=
  if index < 0 ∨ (s.heights.length : Int) ≤ index then none
  else
    match s.heights.getD index.toNat none with
    | none => none
    | some h =>
        let top : Int := (sumBelow s.heights index.toNat : Int)
        let bottom := top + (h : Int)
        let viewportTop := s.scrollTop
        let viewportBottom := s.scrollTop + (s.viewportHeight : Int)
        let isVisible := decide (viewportTop < bottom) && decide (top < viewportBottom)
        let visibleTop := max top viewportTop
        let visibleBottom := min bottom viewportBottom
        let visibleHeight := if isVisible then max 0 (visibleBottom - visibleTop) else 0
        some
          { top := top
            height := (h : Int)
            bottom := bottom
            isVisible := isVisible
            visibleTop := visibleTop - s.scrollTop
            visibleHeight := visibleHeight }

end Anchor

namespace ScrollList

/-- Scroll alignment modes of the selection navigator (part_017). -/
inductive Alignment where
  | auto
  | top
  | bottom
  | center
deriving DecidableEq

/-- The alignment target as written in the specification: `top` aligns the
top edge of the item with the viewport top; `bottom` puts the bottom edge of the item
at the viewport bottom; `center` centers the item; `auto` moves minimally —
to the item top when the item starts above the view, to
`bottom - viewportHeight` when it ends below the view, otherwise nowhere. -/
def specAlignTarget (itemTop itemHeight viewportHeight currentOffset : ℚ) :
    Alignment → ℚ
  | .top => itemTop
  | .bottom => itemTop + itemHeight - viewportHeight
  | .center => itemTop + itemHeight / 2 - viewportHeight / 2
  | .auto =>
      if itemTop < currentOffset then itemTop
      else if currentOffset + viewportHeight < itemTop + itemHeight then
        itemTop + itemHeight - viewportHeight
      else currentOffset

/-- The `scrollToItem` of part_017 lines 205-244, as the scroll offset it
leaves behind.  A `none` layout (unmeasured or out of range) is a no-op.
Otherwise the per-alignment target is computed, clamped to
`[0, maxScrollOffset]`, and handed to the `scrollTo` of the ScrollView (which
clamps once more) only when it differs from the current offset.  Heights and
offsets are `ℚ` because the `center` mode divides by 2 exactly in
JavaScript. -/
def scrollToItem (layout : Option (ℚ × ℚ)) (mode : Alignment)
    (viewportHeight currentOffset maxScrollOffset : ℚ) : ℚ :=
  match layout with
  | none => currentOffset
  | some (itemTop, itemHeight) =>
      let target :=
        match mode with
        | .top => itemTop
        | .bottom => itemTop + itemHeight - viewportHeight
        | .center => itemTop + itemHeight / 2 - viewportHeight / 2
        | .auto =>
            let itemBottom := itemTop + itemHeight
            if itemTop < currentOffset then itemTop
            else if currentOffset + viewportHeight < itemBottom then
              itemBottom - viewportHeight
            else currentOffset
      let clamped := max 0 (min target maxScrollOffset)
      if clamped ≠ currentOffset then max 0 (min clamped maxScrollOffset)
      else currentOffset

/-- The initial value of the `internalSelectedIndex` state of part_017 line
198: `useState(0)`. -/
def initialSelectedIndex : Int := 0

/-- The clamp inside `updateSelection` (part_017 line 249):
`Math.max(0, Math.min(newIndex, itemCount - 1))`. -/
def updateSelection (itemCount : Nat) (newIndex : Int) : Int :=
  max 0 (min newIndex ((itemCount : Int) - 1))

/-- The `selectNext` of part_017 lines 296-301. -/
def selectNext (itemCount : Nat) (cur : Int) : Int :=
  if cur < (itemCount : Int) - 1 then updateSelection itemCount (cur + 1) else cur

/-- The `selectPrevious` of part_017 lines 302-307. -/
def selectPrevious (itemCount : Nat) (cur : Int) : Int :=
  if 0 < cur then updateSelection itemCount (cur - 1) else cur

/-- The `selectFirst` of part_017 lines 308-310. -/
def selectFirst (itemCount : Nat) : Int :=
  updateSelection itemCount 0

/-- The `selectLast` of part_017 lines 311-313. -/
def selectLast (itemCount : Nat) : Int :=
  updateSelection itemCount ((itemCount : Int) - 1)

end ScrollList

/-! Helper lemmas about `List.set`, `List.getD` and `List.take`. -/

theorem getD_set_self {α : Type} (l : List α) (i : Nat) (a d : α) (h : i < l.length) :
    (l.set i a).getD i d = a := by
  induction l generalizing i with
  | nil => simp at h
  | cons b t ih =>
    cases i with
    | zero => rfl
    | succ n => exact ih n (Nat.lt_of_succ_lt_succ h)

theorem getD_set_ne {α : Type} (l : List α) {i j : Nat} (a d : α) (h : i ≠ j) :
    (l.set i a).getD j d = l.getD j d := by
  induction l generalizing i j with
  | nil => rfl
  | cons b t ih =>
    cases i with
    | zero =>
      cases j with
      | zero => exact absurd rfl h
      | succ m => rfl
    | succ n =>
      cases j with
      | zero => rfl
      | succ m => exact ih (fun he => h (congrArg Nat.succ he))

theorem take_set_of_le {α : Type} (l : List α) {i j : Nat} (a : α) (h : j ≤ i) :
    (l.set i a).take j = l.take j := by
  induction l generalizing i j with
  | nil => rfl
  | cons b t ih =>
    cases i with
    | zero =>
      have hj : j = 0 := Nat.le_zero.mp h
      subst hj
      rfl
    | succ n =>
      cases j with
      | zero => rfl
      | succ m =>
        simp only [List.set, List.take, List.cons.injEq, true_and]
        exact ih (Nat.le_of_succ_le_succ h)

namespace Engine

theorem prefixSum_zero (hs : List Nat) : prefixSum hs 0 = 0 := rfl

theorem prefixSum_succ (hs : List Nat) (i : Nat) :
    prefixSum hs (i + 1) = prefixSum hs i + hs.getD i 0 := by
  induction hs generalizing i with
  | nil => simp [prefixSum]
  | cons b t ih =>
    cases i with
    | zero => simp [prefixSum]
    | succ n =>
      have h1 : prefixSum (b :: t) (n + 1 + 1) = b + prefixSum t (n + 1) := by
        simp [prefixSum]
      have h2 : prefixSum (b :: t) (n + 1) = b + prefixSum t n := by
        simp [prefixSum]
      have h3 : (b :: t).getD (n + 1) 0 = t.getD n 0 := rfl
      rw [h1, h2, h3, ih]
      omega

theorem prefixSum_set_of_le (hs : List Nat) {i j : Nat} (a : Nat) (h : j ≤ i) :
    prefixSum (hs.set i a) j = prefixSum hs j := by
  unfold prefixSum
  rw [take_set_of_le hs a h]

theorem sum_set_int (hs : List Nat) (i h : Nat) (hlt : i < hs.length) :
    (((hs.set i h).sum : Nat) : Int) = (hs.sum : Int) + (h : Int) - (hs.getD i 0 : Int) := by
  induction hs generalizing i with
  | nil => simp at hlt
  | cons b t ih =>
    cases i with
    | zero =>
      have hg : (b :: t).getD 0 0 = b := rfl
      simp only [List.set, List.sum_cons, hg]
      push_cast
      ring
    | succ n =>
      have hg : (b :: t).getD (n + 1) 0 = t.getD n 0 := rfl
      have := ih n (Nat.lt_of_succ_lt_succ hlt)
      simp only [List.set, List.sum_cons, hg]
      push_cast at this ⊢
      omega

theorem fillLoop_length (hs : List Nat) (offs : List Nat) (i fuel cur : Nat) :
    (fillLoop hs offs i fuel cur).length = offs.length := by
  induction fuel generalizing offs i cur with
  | zero => rfl
  | succ n ih =>
    rw [fillLoop, ih]
    exact List.length_set offs i cur

theorem fillLoop_getD_lt (hs : List Nat) :
    ∀ (fuel i cur : Nat) (offs : List Nat) (j : Nat), j < i →
      (fillLoop hs offs i fuel cur).getD j 0 = offs.getD j 0 := by
  intro fuel
  induction fuel with
  | zero =>
    intro i cur offs j h
    rfl
  | succ n ih =>
    intro i cur offs j h
    rw [fillLoop, ih (i + 1) _ _ j (Nat.lt_succ_of_lt h)]
    exact getD_set_ne offs cur 0 (by omega)

theorem fillLoop_getD_spec (hs : List Nat) :
    ∀ (fuel i : Nat) (offs : List Nat), i + fuel ≤ offs.length →
      ∀ j, i ≤ j → j < i + fuel →
        (fillLoop hs offs i fuel (prefixSum hs i)).getD j 0 = prefixSum hs j := by
  intro fuel
  induction fuel with
  | zero =>
    intro i offs hlen j h1 h2
    omega
  | succ n ih =>
    intro i offs hlen j h1 h2
    rw [fillLoop, ← prefixSum_succ]
    rcases Nat.eq_or_lt_of_le h1 with he | hlt
    · subst he
      rw [fillLoop_getD_lt hs n (i + 1) _ _ i (Nat.lt_succ_self i)]
      exact getD_set_self offs i _ 0 (by omega)
    · have hlen2 : (i + 1) + n ≤ (offs.set i (prefixSum hs i)).length := by
        rw [List.length_set]
        omega
      exact ih (i + 1) (offs.set i (prefixSum hs i)) hlen2 j hlt (by omega)

/-! Validity of the lazy offset cache and its preservation. -/

theorem refreshCache_fields (s : EngineState) (i : Nat) :
    (refreshCache s i).heights = s.heights ∧
    (refreshCache s i).scrollOffset = s.scrollOffset ∧
    (refreshCache s i).contentHeight = s.contentHeight ∧
    (refreshCache s i).viewportHeight = s.viewportHeight := by
  unfold refreshCache
  split
  · exact ⟨rfl, rfl, rfl, rfl⟩
  · exact ⟨rfl, rfl, rfl, rfl⟩

theorem refreshCache_valid (s : EngineState) (i : Nat) (hv : CacheValid s)
    (hi : i < s.heights.length) :
    CacheValid (refreshCache s i) ∧ i < (refreshCache s i).firstInvalid := by
  obtain ⟨hlen, hfi, hval⟩ := hv
  unfold refreshCache
  split
  case isTrue hle =>
    refine ⟨⟨?_, ?_, ?_⟩, ?_⟩
    · show (fillLoop s.heights s.offsets s.firstInvalid _ _).length = s.heights.length
      rw [fillLoop_length, hlen]
    · show i + 1 ≤ s.heights.length
      omega
    · intro j hj
      show (fillLoop s.heights s.offsets s.firstInvalid (i + 1 - s.firstInvalid) _).getD j 0 =
        prefixSum s.heights j
      have hj2 : j < i + 1 := hj
      by_cases hjs : j < s.firstInvalid
      · rw [fillLoop_getD_lt s.heights _ _ _ _ j hjs]
        exact hval j hjs
      · have hcur :
            (if 0 < s.firstInvalid then
              s.offsets.getD (s.firstInvalid - 1) 0 + s.heights.getD (s.firstInvalid - 1) 0
            else 0) = prefixSum s.heights s.firstInvalid := by
          split
          case isTrue hpos =>
            rw [hval (s.firstInvalid - 1) (by omega), ← prefixSum_succ]
            congr 1
            omega
          case isFalse hpos =>
            have h0 : s.firstInvalid = 0 := by omega
            rw [h0]
            rfl
        rw [hcur]
        exact fillLoop_getD_spec s.heights (i + 1 - s.firstInvalid) s.firstInvalid s.offsets
          (by omega) j (by omega) (by omega)
    · show i < i + 1
      omega
  case isFalse hle =>
    exact ⟨⟨hlen, hfi, hval⟩, by omega⟩

theorem getItemPosition_snd (s : EngineState) (index : Int) :
    (getItemPosition s index).2 =
      if index < 0 ∨ (s.heights.length : Int) ≤ index then s else refreshCache s index.toNat := by
  unfold getItemPosition
  split
  · rfl
  · rfl

theorem getItemPosition_valid (s : EngineState) (index : Int) (hv : CacheValid s) :
    CacheValid (getItemPosition s index).2 := by
  rw [getItemPosition_snd]
  split
  · exact hv
  case isFalse hg =>
    push_neg at hg
    have hi : index.toNat < s.heights.length := by omega
    exact (refreshCache_valid s index.toNat hv hi).1

theorem getItemPosition_fst (s : EngineState) (index : Int) (hv : CacheValid s) :
    (getItemPosition s index).1 = pureItemPosition s.heights index := by
  unfold getItemPosition pureItemPosition
  split
  · rfl
  case isFalse hg =>
    push_neg at hg
    have hi : index.toNat < s.heights.length := by omega
    obtain ⟨hva, hlt⟩ := refreshCache_valid s index.toNat hv hi
    show some
        ((refreshCache s index.toNat).offsets.getD index.toNat 0,
          (refreshCache s index.toNat).heights.getD index.toNat 0) =
      some (prefixSum s.heights index.toNat, s.heights.getD index.toNat 0)
    rw [hva.2.2 index.toNat hlt, (refreshCache_fields s index.toNat).1]

theorem handleItemMeasure_valid (s : EngineState) (index h : Nat) (hv : CacheValid s) :
    CacheValid (handleItemMeasure s index h) := by
  obtain ⟨hlen, hfi, hval⟩ := hv
  unfold handleItemMeasure
  split
  · exact ⟨hlen, hfi, hval⟩
  · refine ⟨?_, ?_, ?_⟩
    · show s.offsets.length = (s.heights.set index h).length
      rw [List.length_set]
      exact hlen
    · show min s.firstInvalid (index + 1) ≤ (s.heights.set index h).length
      rw [List.length_set]
      omega
    · intro j hj
      have hj2 : j < min s.firstInvalid (index + 1) := hj
      show s.offsets.getD j 0 = prefixSum (s.heights.set index h) j
      rw [prefixSum_set_of_le s.heights h (by omega)]
      exact hval j (by omega)

theorem clampEffect_valid (s : EngineState) (hv : CacheValid s) :
    CacheValid (clampEffect s) := by
  unfold clampEffect
  split
  · exact hv
  · exact hv

theorem step_valid (s : EngineState) (e : Ev) (hv : CacheValid s) :
    CacheValid (step s e) := by
  cases e with
  | measure index h => exact clampEffect_valid _ (handleItemMeasure_valid s index h hv)
  | query index => exact getItemPosition_valid s index hv
  | scrollTo offset =>
    show CacheValid (Engine.scrollTo s offset).1
    unfold Engine.scrollTo
    dsimp only
    split
    · exact hv
    · exact hv
  | scrollBy delta =>
    show CacheValid (Engine.scrollBy s delta).1
    unfold Engine.scrollBy Engine.scrollTo
    dsimp only
    split
    · exact hv
    · exact hv
  | scrollToTop =>
    show CacheValid (Engine.scrollToTop s).1
    unfold Engine.scrollToTop
    split
    · exact hv
    · exact hv
  | scrollToBottom =>
    show CacheValid (Engine.scrollToBottom s).1
    unfold Engine.scrollToBottom
    dsimp only
    split
    · exact hv
    · exact hv
  | setViewport v => exact hv
  | children hs =>
    show CacheValid (childrenChange s hs)
    refine clampEffect_valid _ ⟨?_, ?_, ?_⟩
    · exact List.length_replicate hs.length 0
    · exact Nat.zero_le _
    · intro j hj
      exact absurd hj (Nat.not_lt_zero j)

theorem run_valid (s : EngineState) (evs : List Ev) (hv : CacheValid s) :
    CacheValid (run s evs) := by
  induction evs generalizing s with
  | nil => exact hv
  | cons e es ih => exact ih (step s e) (step_valid s e hv)

theorem initState_valid (h0 : List Nat) (v0 : Nat) : CacheValid (initState h0 v0) := by
  refine ⟨?_, ?_, ?_⟩
  · exact List.length_replicate h0.length 0
  · exact Nat.zero_le _
  · intro j hj
    exact absurd hj (Nat.not_lt_zero j)

/-! Preservation of the content height and scroll offset invariants. -/

theorem clampEffect_contentInv (s : EngineState) (hc : ContentInv s) :
    ContentInv (clampEffect s) := by
  unfold clampEffect
  split
  · exact hc
  · exact hc

theorem clampEffect_bound (s : EngineState) (hc : ContentInv s) (h0 : 0 ≤ s.scrollOffset) :
    OffsetBound (clampEffect s) := by
  have hnn : (0 : Int) ≤ s.contentHeight := by
    rw [hc]
    exact Int.natCast_nonneg _
  unfold clampEffect OffsetBound
  split
  · constructor
    · exact hnn
    · exact le_refl _
  case isFalse hlt =>
    exact ⟨h0, by omega⟩

theorem handleItemMeasure_contentInv (s : EngineState) (index h : Nat)
    (hidx : index < s.heights.length) (hc : ContentInv s) :
    ContentInv (handleItemMeasure s index h) := by
  unfold handleItemMeasure
  split
  · exact hc
  · show s.contentHeight + ((h : Int) - (s.heights.getD index 0 : Int)) =
      ((s.heights.set index h).sum : Int)
    rw [sum_set_int s.heights index h hidx, hc]
    ring

theorem stepOK_inv (s : EngineState) (e : Ev) (hc : ContentInv s) (hb : OffsetBound s)
    (hok : evOK s e = true) : ContentInv (step s e) ∧ OffsetBound (step s e) := by
  have hnn : (0 : Int) ≤ s.contentHeight := by
    rw [hc]
    exact Int.natCast_nonneg _
  cases e with
  | measure index h =>
    have hidx : index < s.heights.length := by
      have := hok
      unfold evOK at this
      exact of_decide_eq_true this
    have hc2 : ContentInv (handleItemMeasure s index h) :=
      handleItemMeasure_contentInv s index h hidx hc
    have h0 : 0 ≤ (handleItemMeasure s index h).scrollOffset := by
      unfold handleItemMeasure
      split
      · exact hb.1
      · exact hb.1
    exact ⟨clampEffect_contentInv _ hc2, clampEffect_bound _ hc2 h0⟩
  | query index =>
    rw [show step s (Ev.query index) = (getItemPosition s index).2 from rfl,
      getItemPosition_snd]
    split
    · exact ⟨hc, hb⟩
    · constructor
      · show (refreshCache s index.toNat).contentHeight =
          ((refreshCache s index.toNat).heights.sum : Int)
        rw [(refreshCache_fields s index.toNat).1, (refreshCache_fields s index.toNat).2.2.1]
        exact hc
      · show 0 ≤ (refreshCache s index.toNat).scrollOffset ∧
          (refreshCache s index.toNat).scrollOffset ≤ (refreshCache s index.toNat).contentHeight
        rw [(refreshCache_fields s index.toNat).2.1, (refreshCache_fields s index.toNat).2.2.1]
        exact hb
  | scrollTo offset =>
    show ContentInv (Engine.scrollTo s offset).1 ∧ OffsetBound (Engine.scrollTo s offset).1
    unfold Engine.scrollTo
    dsimp only
    split
    · refine ⟨hc, ?_, ?_⟩
      · show (0 : Int) ≤ max 0 (min offset s.contentHeight)
        omega
      · show max 0 (min offset s.contentHeight) ≤ s.contentHeight
        omega
    · exact ⟨hc, hb⟩
  | scrollBy delta =>
    show ContentInv (Engine.scrollBy s delta).1 ∧ OffsetBound (Engine.scrollBy s delta).1
    unfold Engine.scrollBy Engine.scrollTo
    dsimp only
    split
    · refine ⟨hc, ?_, ?_⟩
      · show (0 : Int) ≤ max 0 (min (s.scrollOffset + delta) s.contentHeight)
        omega
      · show max 0 (min (s.scrollOffset + delta) s.contentHeight) ≤ s.contentHeight
        omega
    · exact ⟨hc, hb⟩
  | scrollToTop =>
    show ContentInv (Engine.scrollToTop s).1 ∧ OffsetBound (Engine.scrollToTop s).1
    unfold Engine.scrollToTop
    split
    · exact ⟨hc, le_refl 0, hnn⟩
    · exact ⟨hc, hb⟩
  | scrollToBottom =>
    show ContentInv (Engine.scrollToBottom s).1 ∧ OffsetBound (Engine.scrollToBottom s).1
    unfold Engine.scrollToBottom
    dsimp only
    split
    · refine ⟨hc, ?_, ?_⟩
      · show (0 : Int) ≤ max 0 (s.contentHeight - (s.viewportHeight : Int))
        omega
      · show max 0 (s.contentHeight - (s.viewportHeight : Int)) ≤ s.contentHeight
        have : (0 : Int) ≤ (s.viewportHeight : Int) := Int.natCast_nonneg _
        omega
    · exact ⟨hc, hb⟩
  | setViewport v => exact ⟨hc, hb⟩
  | children hs =>
    show ContentInv (childrenChange s hs) ∧ OffsetBound (childrenChange s hs)
    unfold childrenChange
    constructor
    · exact clampEffect_contentInv _ rfl
    · exact clampEffect_bound _ rfl hb.1

theorem runOK_inv (s : EngineState) (evs : List Ev) (hc : ContentInv s) (hb : OffsetBound s)
    (hok : runOK s evs = true) : ContentInv (run s evs) ∧ OffsetBound (run s evs) := by
  induction evs generalizing s with
  | nil => exact ⟨hc, hb⟩
  | cons e es ih =>
    rw [runOK, Bool.and_eq_true] at hok
    have hstep := stepOK_inv s e hc hb hok.1
    exact ih (step s e) hstep.1 hstep.2 hok.2

theorem initState_contentInv (h0 : List Nat) (v0 : Nat) : ContentInv (initState h0 v0) := rfl

theorem initState_bound (h0 : List Nat) (v0 : Nat) : OffsetBound (initState h0 v0) :=
  ⟨le_refl 0, Int.natCast_nonneg _⟩

end Engine

namespace Clamped

theorem clampEffect_inv (s : CState) (h0 : 0 ≤ s.scrollOffset) :
    OffsetInv (clampEffect s) := by
  unfold clampEffect OffsetInv maxScrollOffset
  split
  · constructor
    · exact le_max_left 0 _
    · exact le_refl _
  case isFalse hlt =>
    exact ⟨h0, by omega⟩

theorem step_inv (s : CState) (e : Ev) (hb : OffsetInv s) : OffsetInv (step s e) := by
  cases e with
  | measure index h =>
    show OffsetInv (onItemMeasure s index h)
    unfold onItemMeasure
    split
    · exact hb
    · exact clampEffect_inv _ hb.1
  | scrollTo offset =>
    show OffsetInv (Clamped.scrollTo s offset).1
    unfold Clamped.scrollTo
    dsimp only
    split
    · constructor
      · show (0 : Int) ≤ max 0 (min offset (maxScrollOffset s))
        omega
      · show max 0 (min offset (maxScrollOffset s)) ≤
          max 0 (s.contentHeight - (s.viewportHeight : Int))
        unfold maxScrollOffset
        omega
    · exact hb
  | scrollBy delta =>
    show OffsetInv (Clamped.scrollBy s delta).1
    unfold Clamped.scrollBy Clamped.scrollTo
    dsimp only
    split
    · constructor
      · show (0 : Int) ≤ max 0 (min (s.scrollOffset + delta) (maxScrollOffset s))
        omega
      · show max 0 (min (s.scrollOffset + delta) (maxScrollOffset s)) ≤
          max 0 (s.contentHeight - (s.viewportHeight : Int))
        unfold maxScrollOffset
        omega
    · exact hb
  | scrollToTop =>
    show OffsetInv (Clamped.scrollToTop s).1
    unfold Clamped.scrollToTop
    split
    · exact ⟨le_refl 0, le_max_left 0 _⟩
    · exact hb
  | scrollToBottom =>
    show OffsetInv (Clamped.scrollToBottom s).1
    unfold Clamped.scrollToBottom
    split
    · exact ⟨le_max_left 0 _, le_refl _⟩
    · exact hb
  | setViewport v =>
    show OffsetInv (Clamped.setViewport s v)
    exact clampEffect_inv _ hb.1
  | children hs =>
    show OffsetInv (childrenChange s hs)
    exact clampEffect_inv _ hb.1

theorem run_inv (s : CState) (evs : List Ev) (hb : OffsetInv s) : OffsetInv (run s evs) := by
  induction evs generalizing s with
  | nil => exact hb
  | cons e es ih => exact ih (step s e) (step_inv s e hb)

theorem initState_inv (h0 : List Nat) (v0 : Nat) : OffsetInv (initState h0 v0) :=
  ⟨le_refl 0, le_max_left 0 _⟩

theorem scrollTo_offset (s : CState) (y : Int) :
    (scrollTo s y).1.scrollOffset = max 0 (min y (maxScrollOffset s)) := by
  unfold scrollTo
  dsimp only
  split
  · rfl
  case isFalse hne =>
    push_neg at hne
    exact hne.symm

theorem scrollTo_fire (s : CState) (y : Int) :
    (scrollTo s y).2 = true ↔ max 0 (min y (maxScrollOffset s)) ≠ s.scrollOffset := by
  unfold scrollTo
  dsimp only
  split
  case isTrue hne => simp [hne]
  case isFalse hne => simp [hne]

theorem scrollTo_max (s : CState) (y : Int) :
    maxScrollOffset (scrollTo s y).1 = maxScrollOffset s := by
  unfold scrollTo
  dsimp only
  split
  · rfl
  · rfl

end Clamped

namespace Engine

theorem scrollTo_offset_content (s : EngineState) (y : Int) :
    (scrollTo s y).1.scrollOffset = max 0 (min y s.contentHeight) := by
  unfold scrollTo
  dsimp only
  split
  · rfl
  case isFalse hne =>
    push_neg at hne
    exact hne.symm

theorem scrollTo_fire_content (s : EngineState) (y : Int) :
    (scrollTo s y).2 = true ↔ max 0 (min y s.contentHeight) ≠ s.scrollOffset := by
  unfold scrollTo
  dsimp only
  split
  case isTrue hne => simp [hne]
  case isFalse hne => simp [hne]

theorem scrollTo_content (s : EngineState) (y : Int) :
    (scrollTo s y).1.contentHeight = s.contentHeight := by
  unfold scrollTo
  dsimp only
  split
  · rfl
  · rfl

end Engine

/-! The claims. -/

/-- C2 counterexample: the stated invariant
`scrollOffset ≤ max 0 (contentHeight - viewportHeight)` fails after a public
`scrollTo` call on the part_018 engine.  With two items measured at height 5
(content height 10) and viewport height 5, `scrollTo 8` leaves the offset at
8, above `max 0 (10 - 5) = 5`. -/
theorem scrollOffset_invariant_cex :
    (Engine.run (Engine.initState [0, 0] 5)
        [Engine.Ev.measure 0 5, Engine.Ev.measure 1 5, Engine.Ev.scrollTo 8]).scrollOffset = 8 ∧
    ¬((Engine.run (Engine.initState [0, 0] 5)
        [Engine.Ev.measure 0 5, Engine.Ev.measure 1 5, Engine.Ev.scrollTo 8]).scrollOffset ≤
      max 0 ((Engine.run (Engine.initState [0, 0] 5)
          [Engine.Ev.measure 0 5, Engine.Ev.measure 1 5, Engine.Ev.scrollTo 8]).contentHeight -
        ((Engine.run (Engine.initState [0, 0] 5)
            [Engine.Ev.measure 0 5, Engine.Ev.measure 1 5,
              Engine.Ev.scrollTo 8]).viewportHeight : Int))) := by
  decide

/-- C2 (amended): after every public method call the scroll offset of the
src/ScrollView.tsx engine satisfies
`0 ≤ scrollOffset ≤ max 0 (contentHeight - viewportHeight)`, while the
part_018 engine only guarantees `0 ≤ scrollOffset ≤ contentHeight` (its
scroll methods and clamp effect use `contentHeight` as the upper bound). -/
theorem scrollOffset_invariant_by_variant :
    (∀ (h0 : List Nat) (v0 : Nat) (evs : List Clamped.Ev),
      Clamped.OffsetInv (Clamped.run (Clamped.initState h0 v0) evs)) ∧
    (∀ (h0 : List Nat) (v0 : Nat) (evs : List Engine.Ev),
      Engine.runOK (Engine.initState h0 v0) evs = true →
        Engine.OffsetBound (Engine.run (Engine.initState h0 v0) evs)) := by
  constructor
  · intro h0 v0 evs
    exact Clamped.run_inv _ evs (Clamped.initState_inv h0 v0)
  · intro h0 v0 evs hok
    exact (Engine.runOK_inv _ evs (Engine.initState_contentInv h0 v0)
      (Engine.initState_bound h0 v0) hok).2

/-- C2 witness: the invariants instantiated on a concrete run. -/
theorem scrollOffset_invariant_by_variant_witness :
    Clamped.OffsetInv (Clamped.run (Clamped.initState [1, 2] 3) [Clamped.Ev.scrollTo 5]) ∧
    Engine.OffsetBound (Engine.run (Engine.initState [1, 2] 3) [Engine.Ev.scrollTo 5]) :=
  ⟨scrollOffset_invariant_by_variant.1 [1, 2] 3 [Clamped.Ev.scrollTo 5],
    scrollOffset_invariant_by_variant.2 [1, 2] 3 [Engine.Ev.scrollTo 5] (by decide)⟩

/-- C3: the claim says a non-finite `scrollTo` target is rejected with no
state change and no notification, and the repository test suite (part_001,
the NaN test) expects the offset to stay 0.  The code has no finiteness
check: under JavaScript number semantics,
`Math.max(0, Math.min(NaN, maxScrollOffset))` is `NaN`, `NaN !== 0` holds,
so `scrollTo(NaN)` stores `NaN` as the offset and fires the scroll
notification; `scrollTo(Infinity)` likewise changes the state (it clamps to
`maxScrollOffset`). -/
theorem scrollTo_nonfinite_mutates_state :
    JS.scrollToJS (JS.JSNum.fin 0) (JS.JSNum.fin 10) JS.JSNum.nan = (JS.JSNum.nan, true) ∧
    (JS.scrollToJS (JS.JSNum.fin 0) (JS.JSNum.fin 10) JS.JSNum.nan).1 ≠ JS.JSNum.fin 0 ∧
    JS.scrollToJS (JS.JSNum.fin 0) (JS.JSNum.fin 10) JS.JSNum.posInf =
      (JS.JSNum.fin 10, true) := by
  decide

/-- C4 counterexample: with content height 10 and viewport height 5, the
part_018 `scrollTo 7` leaves offset 7, but the claimed formula
`max 0 (min 7 (max 0 (contentHeight - viewportHeight)))` gives 5. -/
theorem scrollTo_maxScrollOffset_clamp_cex :
    (Engine.scrollTo (Engine.run (Engine.initState [0, 0] 5)
        [Engine.Ev.measure 0 5, Engine.Ev.measure 1 5]) 7).1.scrollOffset = 7 ∧
    ¬((7 : Int) = max 0 (min 7
        (max 0 ((Engine.run (Engine.initState [0, 0] 5)
            [Engine.Ev.measure 0 5, Engine.Ev.measure 1 5]).contentHeight -
          ((Engine.run (Engine.initState [0, 0] 5)
              [Engine.Ev.measure 0 5, Engine.Ev.measure 1 5]).viewportHeight : Int))))) := by
  decide

/-- C4 (amended): for every finite target, the src/ScrollView.tsx `scrollTo`
stores `max 0 (min y maxScrollOffset)` with
`maxScrollOffset = max 0 (contentHeight - viewportHeight)`, while the
part_018 `scrollTo` stores `max 0 (min y contentHeight)`; in both variants
the notification fires exactly when the clamped value differs from the
current offset, and a repeated identical call keeps the offset and fires no
second notification. -/
theorem scrollTo_clamp_by_variant :
    ∀ (s : Clamped.CState) (t : Engine.EngineState) (y : Int),
      (Clamped.scrollTo s y).1.scrollOffset = max 0 (min y (Clamped.maxScrollOffset s)) ∧
      ((Clamped.scrollTo s y).2 = true ↔
        max 0 (min y (Clamped.maxScrollOffset s)) ≠ s.scrollOffset) ∧
      (Clamped.scrollTo (Clamped.scrollTo s y).1 y).1.scrollOffset =
        (Clamped.scrollTo s y).1.scrollOffset ∧
      (Clamped.scrollTo (Clamped.scrollTo s y).1 y).2 = false ∧
      (Engine.scrollTo t y).1.scrollOffset = max 0 (min y t.contentHeight) ∧
      ((Engine.scrollTo t y).2 = true ↔ max 0 (min y t.contentHeight) ≠ t.scrollOffset) ∧
      (Engine.scrollTo (Engine.scrollTo t y).1 y).1.scrollOffset =
        (Engine.scrollTo t y).1.scrollOffset ∧
      (Engine.scrollTo (Engine.scrollTo t y).1 y).2 = false := by
  intro s t y
  have hc1 : (Clamped.scrollTo (Clamped.scrollTo s y).1 y).1.scrollOffset =
      (Clamped.scrollTo s y).1.scrollOffset := by
    rw [Clamped.scrollTo_offset, Clamped.scrollTo_max, Clamped.scrollTo_offset]
  have hc2 : (Clamped.scrollTo (Clamped.scrollTo s y).1 y).2 = false := by
    have hf := Clamped.scrollTo_fire (Clamped.scrollTo s y).1 y
    rw [Clamped.scrollTo_max, Clamped.scrollTo_offset] at hf
    rw [Bool.eq_false_iff]
    intro hx
    exact hf.mp hx rfl
  have he1 : (Engine.scrollTo (Engine.scrollTo t y).1 y).1.scrollOffset =
      (Engine.scrollTo t y).1.scrollOffset := by
    rw [Engine.scrollTo_offset_content, Engine.scrollTo_content, Engine.scrollTo_offset_content]
  have he2 : (Engine.scrollTo (Engine.scrollTo t y).1 y).2 = false := by
    have hf := Engine.scrollTo_fire_content (Engine.scrollTo t y).1 y
    rw [Engine.scrollTo_content, Engine.scrollTo_offset_content] at hf
    rw [Bool.eq_false_iff]
    intro hx
    exact hf.mp hx rfl
  exact ⟨Clamped.scrollTo_offset s y, Clamped.scrollTo_fire s y, hc1, hc2,
    Engine.scrollTo_offset_content t y, Engine.scrollTo_fire_content t y, he1, he2⟩

/-- C9: on an empty item sequence the selection navigator does not use the
sentinel `-1`: the internal selected index starts at 0, and every selection
operation clamps with `max 0 (min i (itemCount - 1))`, which is 0 when
`itemCount = 0` — contradicting the documented return of `-1` for an empty
selection. -/
theorem empty_selection_index_zero :
    ScrollList.initialSelectedIndex = 0 ∧
    ScrollList.initialSelectedIndex ≠ -1 ∧
    ScrollList.updateSelection 0 5 = 0 ∧
    ScrollList.updateSelection 0 (-3) = 0 ∧
    ScrollList.selectFirst 0 = 0 ∧
    ScrollList.selectLast 0 = 0 ∧
    ScrollList.selectNext 0 0 = 0 ∧
    ScrollList.selectPrevious 0 0 = 0 := by
  decide

/-- C1: after any sequence of measurement reports, position queries and
other engine events, `getItemPosition i` on an in-range index returns the
prefix sum of the current height table as `top` (and the stored height):
the lazy offset cache with `min`-invalidation and forward filling agrees
with a direct prefix sum. -/
theorem offsetCache_top_eq_prefixSum (h0 : List Nat) (v0 : Nat) (evs : List Engine.Ev)
    (i : Nat) (hi : i < (Engine.run (Engine.initState h0 v0) evs).heights.length) :
    (Engine.getItemPosition (Engine.run (Engine.initState h0 v0) evs) ((i : Nat) : Int)).1 =
      some (Engine.prefixSum (Engine.run (Engine.initState h0 v0) evs).heights i,
        (Engine.run (Engine.initState h0 v0) evs).heights.getD i 0) := by
  have hv := Engine.run_valid _ evs (Engine.initState_valid h0 v0)
  rw [Engine.getItemPosition_fst _ _ hv]
  unfold Engine.pureItemPosition
  rw [if_neg (by omega)]
  simp

/-- C1 witness: three items, heights reported as 2 and 3 with a query in
between and a re-measurement of item 0 to height 1; the query for index 2
yields top `1 + 3 = 4` and height 0. -/
theorem offsetCache_top_eq_prefixSum_witness :
    (Engine.getItemPosition
        (Engine.run (Engine.initState [0, 0, 0] 4)
          [Engine.Ev.measure 0 2, Engine.Ev.measure 1 3, Engine.Ev.query 1,
            Engine.Ev.measure 0 1])
        ((2 : Nat) : Int)).1 = some (4, 0) :=
  (offsetCache_top_eq_prefixSum [0, 0, 0] 4
    [Engine.Ev.measure 0 2, Engine.Ev.measure 1 3, Engine.Ev.query 1, Engine.Ev.measure 0 1]
    2 (by decide)).trans (by decide)

/-- C5: the incrementally maintained content height (delta updates on each
height change, full resummation on a sequence change) always equals the
direct sum over the current height table, for every well-formed event
sequence (measurement reports target mounted indices). -/
theorem contentHeight_eq_sum_heights (h0 : List Nat) (v0 : Nat) (evs : List Engine.Ev)
    (hok : Engine.runOK (Engine.initState h0 v0) evs = true) :
    (Engine.run (Engine.initState h0 v0) evs).contentHeight =
      ((Engine.run (Engine.initState h0 v0) evs).heights.sum : Int) :=
  (Engine.runOK_inv _ evs (Engine.initState_contentInv h0 v0)
    (Engine.initState_bound h0 v0) hok).1

/-- C5 witness: a run with a measurement, a sequence change and another
measurement ends with content height 9, the sum of the final heights. -/
theorem contentHeight_eq_sum_heights_witness :
    (Engine.run (Engine.initState [0, 0] 4)
        [Engine.Ev.measure 0 2, Engine.Ev.children [5, 1], Engine.Ev.measure 1 4,
          Engine.Ev.scrollTo 3]).contentHeight =
      ((Engine.run (Engine.initState [0, 0] 4)
          [Engine.Ev.measure 0 2, Engine.Ev.children [5, 1], Engine.Ev.measure 1 4,
            Engine.Ev.scrollTo 3]).heights.sum : Int) ∧
    (Engine.run (Engine.initState [0, 0] 4)
        [Engine.Ev.measure 0 2, Engine.Ev.children [5, 1], Engine.Ev.measure 1 4,
          Engine.Ev.scrollTo 3]).contentHeight = 9 :=
  ⟨contentHeight_eq_sum_heights [0, 0] 4
      [Engine.Ev.measure 0 2, Engine.Ev.children [5, 1], Engine.Ev.measure 1 4,
        Engine.Ev.scrollTo 3] (by decide),
    by decide⟩

/-- C6: scroll anchoring in the src/ScrollView.tsx `handleMeasure`.  For a
height-change report on a mounted item whose previous bottom edge
(`top + oldHeight`) lies at or above the current scroll offset, the offset
becomes `max 0 (previous offset + delta)`; when the previous bottom edge is
strictly below the offset, the offset is untouched. -/
theorem anchoring_adjusts_offset :
    ∀ (s : Anchor.AState) (index h : Nat),
      index < s.heights.length →
      s.heights.getD index none ≠ some h →
      (((Anchor.sumBelow s.heights index : Int) +
            (((s.heights.getD index none).getD 0 : Nat) : Int) ≤ s.scrollTop →
          (Anchor.handleMeasure s index h).scrollTop =
            max 0 (s.scrollTop +
              ((h : Int) - (((s.heights.getD index none).getD 0 : Nat) : Int)))) ∧
        (s.scrollTop < (Anchor.sumBelow s.heights index : Int) +
            (((s.heights.getD index none).getD 0 : Nat) : Int) →
          (Anchor.handleMeasure s index h).scrollTop = s.scrollTop)) := by
  intro s index h hlen hne
  have hsum : Anchor.sumBelow (s.heights.set index (some h)) index =
      Anchor.sumBelow s.heights index := by
    unfold Anchor.sumBelow
    rw [take_set_of_le s.heights (some h) (le_refl index)]
  constructor
  · intro hcond
    unfold Anchor.handleMeasure
    rw [if_neg hne]
    dsimp only
    rw [hsum, if_pos hcond]
  · intro hcond
    unfold Anchor.handleMeasure
    rw [if_neg hne]
    dsimp only
    rw [hsum, if_neg (by omega)]

/-- C6 witness: items of heights 2 and 3 with scroll offset 5; growing item
1 to height 6 has previous bottom edge `2 + 3 = 5 ≤ 5`, so the offset moves
to `max 0 (5 + 3) = 8`. -/
theorem anchoring_adjusts_offset_witness :
    (Anchor.handleMeasure ⟨[some 2, some 3, none], 5, 4⟩ 1 6).scrollTop = 8 :=
  ((anchoring_adjusts_offset ⟨[some 2, some 3, none], 5, 4⟩ 1 6 (by decide) (by decide)).1
    (by decide)).trans (by decide)

/-- C7 counterexample: `getItemLayout` returns `none` for index 0 of a
one-item sequence whose item has not been measured yet, although 0 lies in
`[0, itemCount)` — so the claim that `none` happens exactly for out-of-range
indices fails for `getItemLayout`. -/
theorem getItemLayout_unmeasured_null_cex :
    Anchor.getItemLayout ⟨[none], 0, 5⟩ 0 = none ∧
    ¬((0 : Int) < 0 ∨
      (((⟨[none], 0, 5⟩ : Anchor.AState).heights.length : Int) ≤ 0)) := by
  decide

/-- C7 (amended): the part_018 `getItemPosition` returns `none` exactly for
indices outside `[0, itemCount)` (in range it returns a best-effort pair
with height 0 for unmeasured items); the src/ScrollView.tsx `getItemLayout`
returns `none` for out-of-range indices and additionally for in-range items
that have not been measured yet.  Neither can throw. -/
theorem layout_query_null_iff :
    (∀ (s : Anchor.AState) (index : Int),
      Anchor.getItemLayout s index = none ↔
        (index < 0 ∨ (s.heights.length : Int) ≤ index ∨
          s.heights.getD index.toNat none = none)) ∧
    (∀ (t : Engine.EngineState) (index : Int),
      (Engine.getItemPosition t index).1 = none ↔
        (index < 0 ∨ (t.heights.length : Int) ≤ index)) := by
  constructor
  · intro s index
    unfold Anchor.getItemLayout
    split
    case isTrue hg =>
      refine ⟨fun _ => ?_, fun _ => rfl⟩
      rcases hg with hg | hg
      · exact Or.inl hg
      · exact Or.inr (Or.inl hg)
    case isFalse hg =>
      push_neg at hg
      cases hh : s.heights.getD index.toNat none with
      | none =>
        exact ⟨fun _ => Or.inr (Or.inr rfl), fun _ => rfl⟩
      | some hv =>
        constructor
        · intro hfalse
          exact Option.noConfusion hfalse
        · intro hr
          rcases hr with hr | hr | hr
          · omega
          · omega
          · exact Option.noConfusion hr
  · intro t index
    unfold Engine.getItemPosition
    split
    case isTrue hg => exact ⟨fun _ => hg, fun _ => rfl⟩
    case isFalse hg =>
      constructor
      · intro hfalse
        exact Option.noConfusion hfalse
      · intro hr
        exact absurd hr hg

/-- Clamping an already clamped value to the same nonnegative bound is the
identity; this is why the extra clamp inside the delegated `scrollTo` does
not change the `scrollToItem` target. -/
theorem clamp_twice (target M cur : ℚ) (hM : 0 ≤ M) :
    (if max 0 (min target M) ≠ cur then max 0 (min (max 0 (min target M)) M) else cur) =
      max 0 (min target M) := by
  by_cases hc : max 0 (min target M) = cur
  · rw [if_neg (not_not_intro hc)]
    exact hc.symm
  · rw [if_pos hc]
    have h0 : (0 : ℚ) ≤ max 0 (min target M) := le_max_left 0 _
    have h1 : max 0 (min target M) ≤ M := max_le hM (min_le_right target M)
    rw [min_eq_left h1, max_eq_right h0]

/-- C8: the part_017 `scrollToItem` leaves the offset at the per-alignment
target of the specification clamped to `[0, maxScrollOffset]`
(`maxScrollOffset` is always of the form `max 0 _`), and is a no-op when the
item layout is unavailable. -/
theorem scrollToItem_alignment_formula :
    ∀ (itemTop itemHeight viewportHeight currentOffset m : ℚ) (mode : ScrollList.Alignment),
      ScrollList.scrollToItem (some (itemTop, itemHeight)) mode viewportHeight currentOffset
          (max 0 m) =
        max 0 (min
          (ScrollList.specAlignTarget itemTop itemHeight viewportHeight currentOffset mode)
          (max 0 m)) ∧
      ScrollList.scrollToItem none mode viewportHeight currentOffset (max 0 m) =
        currentOffset := by
  intro t h vh cur m mode
  constructor
  · have hM : (0 : ℚ) ≤ max 0 m := le_max_left 0 m
    cases mode <;>
      · unfold ScrollList.scrollToItem ScrollList.specAlignTarget
        dsimp only
        exact clamp_twice _ _ _ hM
  · rfl

/-- C10: `getItemPosition` is observationally pure even though it mutates
the offset cache: on a cache-valid state it leaves the height table, scroll
offset, content height and viewport height unchanged, preserves cache
validity, a repeated identical query returns the same result, and every
subsequent query returns what it would have returned before. -/
theorem getItemPosition_observationally_pure (s : Engine.EngineState) (i j : Int)
    (hv : Engine.CacheValid s) :
    (Engine.getItemPosition s i).2.heights = s.heights ∧
    (Engine.getItemPosition s i).2.scrollOffset = s.scrollOffset ∧
    (Engine.getItemPosition s i).2.contentHeight = s.contentHeight ∧
    (Engine.getItemPosition s i).2.viewportHeight = s.viewportHeight ∧
    Engine.CacheValid (Engine.getItemPosition s i).2 ∧
    (Engine.getItemPosition (Engine.getItemPosition s i).2 i).1 =
      (Engine.getItemPosition s i).1 ∧
    (Engine.getItemPosition (Engine.getItemPosition s i).2 j).1 =
      (Engine.getItemPosition s j).1 := by
  have hv2 := Engine.getItemPosition_valid s i hv
  have hfields : (Engine.getItemPosition s i).2.heights = s.heights ∧
      (Engine.getItemPosition s i).2.scrollOffset = s.scrollOffset ∧
      (Engine.getItemPosition s i).2.contentHeight = s.contentHeight ∧
      (Engine.getItemPosition s i).2.viewportHeight = s.viewportHeight := by
    rw [Engine.getItemPosition_snd]
    split
    · exact ⟨rfl, rfl, rfl, rfl⟩
    · exact Engine.refreshCache_fields s i.toNat
  refine ⟨hfields.1, hfields.2.1, hfields.2.2.1, hfields.2.2.2, hv2, ?_, ?_⟩
  · rw [Engine.getItemPosition_fst _ i hv2, Engine.getItemPosition_fst _ i hv, hfields.1]
  · rw [Engine.getItemPosition_fst _ j hv2, Engine.getItemPosition_fst _ j hv, hfields.1]

/-- C10 witness: the purity statement instantiated on a concrete cache-valid
state with queries for indices 0 and 1. -/
theorem getItemPosition_observationally_pure_witness :
    (Engine.getItemPosition (⟨[2, 3], [0, 0], 0, 1, 5, 4⟩ : Engine.EngineState) 0).2.heights =
      (⟨[2, 3], [0, 0], 0, 1, 5, 4⟩ : Engine.EngineState).heights ∧
    (Engine.getItemPosition (⟨[2, 3], [0, 0], 0, 1, 5, 4⟩ : Engine.EngineState) 0).2.scrollOffset =
      (⟨[2, 3], [0, 0], 0, 1, 5, 4⟩ : Engine.EngineState).scrollOffset ∧
    (Engine.getItemPosition (⟨[2, 3], [0, 0], 0, 1, 5, 4⟩ : Engine.EngineState) 0).2.contentHeight =
      (⟨[2, 3], [0, 0], 0, 1, 5, 4⟩ : Engine.EngineState).contentHeight ∧
    (Engine.getItemPosition (⟨[2, 3], [0, 0], 0, 1, 5, 4⟩ : Engine.EngineState) 0).2.viewportHeight =
      (⟨[2, 3], [0, 0], 0, 1, 5, 4⟩ : Engine.EngineState).viewportHeight ∧
    Engine.CacheValid
      (Engine.getItemPosition (⟨[2, 3], [0, 0], 0, 1, 5, 4⟩ : Engine.EngineState) 0).2 ∧
    (Engine.getItemPosition
        (Engine.getItemPosition (⟨[2, 3], [0, 0], 0, 1, 5, 4⟩ : Engine.EngineState) 0).2 0).1 =
      (Engine.getItemPosition (⟨[2, 3], [0, 0], 0, 1, 5, 4⟩ : Engine.EngineState) 0).1 ∧
    (Engine.getItemPosition
        (Engine.getItemPosition (⟨[2, 3], [0, 0], 0, 1, 5, 4⟩ : Engine.EngineState) 0).2 1).1 =
      (Engine.getItemPosition (⟨[2, 3], [0, 0], 0, 1, 5, 4⟩ : Engine.EngineState) 1).1 :=
  getItemPosition_observationally_pure ⟨[2, 3], [0, 0], 0, 1, 5, 4⟩ 0 1
    ⟨rfl, Nat.zero_le _, fun j hj => absurd hj (Nat.not_lt_zero j)⟩

end InkScroll
